import Mathlib

/-!
Verification of the moodify repository (src/emotion.py, src/moodify.py,
src/spotify_helper.py) against its natural-language specification.

Conventions of the shallow embedding:
* Python floats are modelled as exact rationals (ℚ); "within floating-point
  tolerance" claims are settled exactly.
* Python strings are Lean `String`s; Python string primitives used by the
  source (`str.lower`, `str.strip`, `str.startswith`, substring containment,
  `str.split`) are embedded as executable functions over the character list
  `String.data` below.
* Python dicts with a fixed, never-growing key set (the score accumulator of
  `EmotionDetector.predict`) are modelled as total functions from `String`
  to ℚ that are zero off the key set, together with the key list in Python's
  (insertion-ordered) iteration order.
-/

namespace Moodify

/-! ### Python string primitives -/

/-- Python whitespace characters stripped by `str.strip()`. -/
def isWsChar (c : Char) : Bool := c ∈ [' ', '\t', '\n', '\x0b', '\x0c', '\r']

/-- Python `str.strip()` on the character list. -/
def stripL (l : List Char) : List Char :=
  ((l.dropWhile isWsChar).reverse.dropWhile isWsChar).reverse

/-- Python `str.strip()`. -/
def pyStrip (s : String) : String := ⟨stripL s.data⟩

/-- ASCII `str.lower()` on one character (the source's labels are ASCII). -/
def charLower (c : Char) : Char :=
  if 'A' ≤ c ∧ c ≤ 'Z' then Char.ofNat (c.toNat + 32) else c

/-- Python `str.lower()`. -/
def pyLower (s : String) : String := ⟨s.data.map charLower⟩

/-- Python `str.startswith(pre)`. -/
def pyStartsWith (s pre : String) : Bool := pre.data.isPrefixOf s.data

/-- Python substring containment `pat in s` on character lists. -/
def containsSubL (pat : List Char) : List Char → Bool
  | [] => pat.isEmpty
  | c :: rest => pat.isPrefixOf (c :: rest) || containsSubL pat rest

/-- Python substring containment `pat in s`. -/
def containsSub (s pat : String) : Bool := containsSubL pat.data s.data

/-- Worker for `str.split(pat)` with explicit fuel (one unit per consumed
character; the wrappers pass enough fuel, and the source only splits on
non-empty separators). -/
def splitGo (pat : List Char) : Nat → List Char → List Char → List (List Char)
  | _, [], acc => [acc.reverse]
  | 0, rem, acc => [acc.reverse ++ rem]
  | fuel + 1, c :: rest, acc =>
      if pat ≠ [] ∧ pat.isPrefixOf (c :: rest) then
        acc.reverse :: splitGo pat fuel (List.drop (pat.length - 1) rest) []
      else
        splitGo pat fuel rest (c :: acc)

/-- Python `str.split(pat)` for a non-empty separator `pat`. -/
def pySplit (s pat : String) : List String :=
  (splitGo pat.data s.data.length s.data []).map fun l => ⟨l⟩

/-! ### src/emotion.py -/

/-- Table `LABEL_MAP` from src/emotion.py: model emotion labels → target emotions. -/
def LABEL_MAP (label : String) : Option String :=
  if label = "joy" then some "happy"
  else if label = "happiness" then some "happy"
  else if label = "sadness" then some "sad"
  else if label = "anger" then some "angry"
  else if label = "anger/annoyance" then some "angry"
  else if label = "fear" then some "anxious"
  else if label = "anxiety" then some "anxious"
  else if label = "relief" then some "relaxed"
  else if label = "calm" then some "relaxed"
  else none

/-- List `TARGET_EMOTIONS` from src/emotion.py. -/
def TARGET_EMOTIONS : List String := ["happy", "sad", "relaxed", "anxious", "angry"]

/-- Python `scores[k] += v` on the accumulator dict (total-function view). -/
def bump (sc : String → ℚ) (k : String) (v : ℚ) : String → ℚ :=
  fun x => if x = k then sc x + v else sc x

/-- One iteration of the aggregation loop in `EmotionDetector.predict`
(src/emotion.py lines 39-49) on a raw `(label, score)` entry. -/
def stepEntry (sc : String → ℚ) (entry : String × ℚ) : String → ℚ :=
  let label := pyLower entry.1
  match LABEL_MAP label with
  | some mapped =>
      if mapped ∈ TARGET_EMOTIONS then bump sc mapped entry.2
      else if label ∈ TARGET_EMOTIONS then bump sc label entry.2
      else sc
  | none =>
      if label ∈ TARGET_EMOTIONS then bump sc label entry.2
      else sc

/-- The accumulator after the aggregation loop, starting from the all-zero
dict `{e: 0.0 for e in TARGET_EMOTIONS}`. -/
def rawScores (raw : List (String × ℚ)) : String → ℚ :=
  raw.foldl stepEntry (fun _ => 0)

/-- Python `s = sum(scores.values())` (src/emotion.py line 51): the accumulator
dict has exactly the keys of `TARGET_EMOTIONS`. -/
def sumScores (sc : String → ℚ) : ℚ :=
  (TARGET_EMOTIONS.map sc).sum

/-- The normalization step (src/emotion.py lines 51-54): divide every weight
by the total when it is positive.  The accumulator is zero off the key set,
so dividing at every string is extensionally the source's key-only loop. -/
def normalizeScores (sc : String → ℚ) : String → ℚ :=
  if 0 < sumScores sc then fun k => sc k / sumScores sc else sc

/-- Python `max(items, key=...)` over a non-empty association list: keeps the
first element, replacing it only on a strictly larger value, so the first of
several tied maxima wins. -/
def pyMaxSnd (x : String × ℚ) (xs : List (String × ℚ)) : String × ℚ :=
  xs.foldl (fun b y => if b.2 < y.2 then y else b) x

/-- Result record of `EmotionDetector.predict`. -/
structure PredictResult where
  scores : String → ℚ
  top : String
  top_score : ℚ

/-- Method `EmotionDetector.predict` (src/emotion.py lines 32-57) on the raw
classifier output (the list of `{label, score}` entries).  The dict's keys
are created once from `TARGET_EMOTIONS` and never added to, so
`scores.items()` iterates in `TARGET_EMOTIONS` order. -/
def predict (raw : List (String × ℚ)) : PredictResult :=
  let scores := normalizeScores (rawScores raw)
  let top := pyMaxSnd ("happy", scores "happy")
      ((TARGET_EMOTIONS.drop 1).map fun e => (e, scores e))
  { scores := scores, top := top.1, top_score := top.2 }

/-! ### src/spotify_helper.py: constants and `normalize_ids` -/

/-- Table `MOOD_CHANGE_MAP` from src/spotify_helper.py lines 5-11. -/
def MOOD_CHANGE_MAP (e : String) : Option String :=
  if e = "happy" then some "relaxed"
  else if e = "sad" then some "happy"
  else if e = "angry" then some "relaxed"
  else if e = "anxious" then some "relaxed"
  else if e = "relaxed" then some "happy"
  else none

/-- Table `EMOTION_FEATURES` from src/spotify_helper.py lines 14-20, value
dicts kept as association lists in source order. -/
def EMOTION_FEATURES (e : String) : Option (List (String × ℚ)) :=
  if e = "happy" then
    some [("target_valence", 9/10), ("target_energy", 17/20),
          ("min_tempo", 100), ("max_tempo", 160)]
  else if e = "sad" then
    some [("target_valence", 3/20), ("target_energy", 1/5),
          ("min_tempo", 50), ("max_tempo", 90)]
  else if e = "relaxed" then
    some [("target_valence", 1/2), ("target_energy", 3/10),
          ("min_tempo", 60), ("max_tempo", 110), ("target_acousticness", 7/10)]
  else if e = "anxious" then
    some [("target_valence", 2/5), ("target_energy", 1/2),
          ("min_tempo", 80), ("max_tempo", 140), ("target_danceability", 3/10)]
  else if e = "angry" then
    some [("target_valence", 1/10), ("target_energy", 19/20),
          ("min_tempo", 90), ("max_tempo", 160), ("target_loudness", -5)]
  else none

/-- A track reference as fed to `normalize_ids`: a dict carrying optional
`uri` and `id` entries, or a plain string.  A Python `None` element is
modelled as `Option.none` around `TrackRef` at the use sites. -/
inductive TrackRef where
  | obj (uri id : Option String)
  | str (s : String)
deriving DecidableEq

/-- Python truthiness of an optional string (absent key, `None` or the empty
string are falsy). -/
def truthyOpt : Option String → Bool
  | none => false
  | some s => !(s = "")

/-- One iteration of the loop body of `normalize_ids`
(src/spotify_helper.py lines 39-70), returning the strings appended to
`cleaned` for one element.  A `None` element and the empty string are falsy
and skipped; a falsy dict is skipped, which appends nothing, exactly like a
truthy dict without `uri` and `id`, so the single `obj` constructor covers
both. -/
def normEntry : Option TrackRef → List String
  | none => []
  | some (TrackRef.obj uri id) =>
      if truthyOpt uri then [uri.getD ""]
      else if truthyOpt id then [id.getD ""]
      else []
  | some (TrackRef.str s0) =>
      if s0 = "" then []
      else
        let s := pyStrip s0
        if pyStartsWith s "spotify:track:" then [s]
        else if containsSub s "open.spotify.com/track/" then
          match (pySplit s "track/").drop 1 with
          | [] => [s]
          | t :: _ => [(pySplit t "?").headD ""]
        else if s.length = 22 ∧ ∀ c ∈ s.data, (c.isAlphanum || c = '-' || c = '_') = true
          then [s]
        else [s]

/-- Python `seeds or []` for an optional list argument (`None` defaults to the
empty list). -/
def pyOrNil : Option (List (Option TrackRef)) → List (Option TrackRef)
  | none => []
  | some l => l

/-- Function `normalize_ids` from src/spotify_helper.py lines 29-71. -/
def normalize_ids (seeds : Option (List (Option TrackRef))) : List String :=
  (pyOrNil seeds).foldr (fun s acc => normEntry s ++ acc) []

/-! ### src/spotify_helper.py: `create_playlist_and_add_tracks` -/

/-- The URI-conversion loop body of `create_playlist_and_add_tracks`
(src/spotify_helper.py lines 236-251) on one normalized item.  The items
produced by `normalize_ids` are always strings, so the dict branch of the
source loop is unreachable and the fallback keeps the string as-is. -/
def convertRef (it : String) : String :=
  if pyStartsWith it "spotify:track:" then it
  else if it.length = 22 then "spotify:track:" ++ it
  else if containsSub it "open.spotify.com/track/" then
    match (pySplit it "track/").drop 1 with
    | [] => it
    | t :: _ => "spotify:track:" ++ (pySplit t "?").headD ""
  else it

/-- The `prepared` list of `create_playlist_and_add_tracks`: normalize, convert
to URIs, and filter falsy entries (src/spotify_helper.py lines 233-254). -/
def preparedOf (track_ids : Option (List (Option TrackRef))) : List String :=
  ((normalize_ids track_ids).map convertRef).filter (fun p => !(p = ""))

/-- The chunking `prepared[i:i+100]` of src/spotify_helper.py lines 267-269. -/
def chunks100 (l : List String) : List (List String) :=
  if h : l = [] then []
  else l.take 100 :: chunks100 (l.drop 100)
termination_by l.length
decreasing_by
  simp only [List.length_drop]
  have := List.length_pos.mpr h
  omega

/-- An observable external Spotify call made by
`create_playlist_and_add_tracks`. -/
inductive ExtCall where
  | createP (user name : String) (pub : Bool) (descr : String)
  | addItems (chunk : List String)
deriving DecidableEq

/-- Function `create_playlist_and_add_tracks` from src/spotify_helper.py
lines 227-271, observed through its external calls.  The result is the list
of external calls issued in order; the `ValueError` raise is the `error`
case, carrying the calls made before the raise (none: the check precedes the
`user_playlist_create` call). -/
def create_playlist_and_add_tracks (user_id name : String)
    (track_ids : Option (List (Option TrackRef))) (description : Option String) :
    Except (String × List ExtCall) (List ExtCall) :=
  let prepared := preparedOf track_ids
  if prepared.isEmpty then
    Except.error ("No valid track URIs/IDs to add to playlist.", [])
  else
    Except.ok (ExtCall.createP user_id name false (description.getD "") ::
      (chunks100 prepared).map ExtCall.addItems)

/-! ### src/spotify_helper.py: `recommend_tracks` -/

/-- The fields of a Spotify track object read by `recommend_tracks`:
`restriction_reason` stands for `t.get("restrictions", {}).get("reason")`. -/
structure SpTrack where
  id : Option String
  uri : Option String
  is_playable : Option Bool
  restriction_reason : Option String
deriving DecidableEq

/-- A recommendations response dict, read through its `tracks` entry. -/
structure RecsResult where
  tracks : List SpTrack
deriving DecidableEq

/-- The keyword arguments passed to `sp.recommendations` by `safe_recs`:
`limit` plus the seed and mood keyword dicts (absent = `None`, filtered out
by the source before the call). -/
structure RecArgs where
  limit : Nat
  seed_tracks : Option (List String)
  seed_genres : Option (List String)
  mood : List (String × ℚ)
deriving DecidableEq

/-- The external Spotify client as seen by `recommend_tracks`: each method
either returns a value or raises a transport/service error (`Except.error`).
`sp.track` receives the possibly-`None` id the source passes it, and
`sp.search` is read through `s.get("tracks", {}).get("items", [])`. -/
structure SpotifyEnv where
  track : Option String → Except String (Option SpTrack)
  recommendations : RecArgs → Except String (Option RecsResult)
  search : String → Except String (List SpTrack)

/-- Inner helper `validate_track` of `recommend_tracks`
(src/spotify_helper.py lines 98-125): returns the track object if playable,
`none` otherwise; any exception from `sp.track` is caught and yields `none`. -/
def validate_track (env : SpotifyEnv) (track_id_or_uri : Option String) :
    Option SpTrack :=
  let tid : Option String :=
    match track_id_or_uri with
    | some s =>
        if pyStartsWith s "spotify:track:" then
          some ((pySplit s "spotify:track:").getD 1 s)
        else some s
    | none => none
  match env.track tid with
  | Except.error _ => none
  | Except.ok none => none
  | Except.ok (some t) =>
      if t.is_playable = some false then none
      else if t.restriction_reason = some "market" ∨
          t.restriction_reason = some "premium" then none
      else if !truthyOpt t.uri then none
      else some t

/-- Inner helper `safe_recs` of `recommend_tracks` (src/spotify_helper.py
lines 127-137): the recommendations call with every exception caught and
turned into `None`; a `None` response is indistinguishable from a caught
exception for the caller, which tests `if result and result.get("tracks")`. -/
def safe_recs (env : SpotifyEnv) (args : RecArgs) : Option RecsResult :=
  match env.recommendations args with
  | Except.error _ => none
  | Except.ok r => r

/-- The fixed artist queries of the search-based fallback
(src/spotify_helper.py lines 189-192). -/
def search_queries : List String :=
  ["Taylor Swift", "The Beatles", "Ed Sheeran", "Billie Eilish", "Coldplay",
   "Adele", "Drake", "BTS", "The Weeknd", "Bruno Mars"]

/-- The search-based fallback loop (src/spotify_helper.py lines 193-204):
for each query, any exception is caught and the loop continues; the first
playable track found is returned. -/
def searchFallback (env : SpotifyEnv) : List String → Option SpTrack
  | [] => none
  | q :: qs =>
      match env.search q with
      | Except.error _ => searchFallback env qs
      | Except.ok items =>
          match items.findSome? (fun t => validate_track env t.id) with
          | some playable => some playable
          | none => searchFallback env qs

/-- The last-ditch known-good track ids (src/spotify_helper.py lines 208-212). -/
def known_good_ids : List String :=
  ["3KkXRkHbMCARz0aVfEt68P", "4aWmUDTfIPGksMNLV2rQP2", "0e7ipj03S05BNilyu5bRzt"]

/-- The known-good-ids fallback loop (src/spotify_helper.py lines 213-220). -/
def knownGoodFallback (env : SpotifyEnv) : List String → Option SpTrack
  | [] => none
  | kid :: rest =>
      match validate_track env (some kid) with
      | some t => some t
      | none => knownGoodFallback env rest

/-- Function `recommend_tracks` from src/spotify_helper.py lines 74-224
(`market` and `debug` only affect logging and are omitted).  Every external
call is guarded, so the embedding is total: a transport error in any state
moves on to the next state, and the terminal state returns the explicit
empty result. -/
def recommend_tracks (env : SpotifyEnv)
    (top_tracks seed_tracks : Option (List (Option TrackRef)))
    (change_mood : Option String) (limit : Nat)
    (fallback_genres : List String) : RecsResult :=
  let raw_seeds := normalize_ids
    (match seed_tracks with
     | some l => if l = [] then (match top_tracks with
         | some l2 => if l2 = [] then some [] else some l2
         | none => some []) else some l
     | none => (match top_tracks with
         | some l2 => if l2 = [] then some [] else some l2
         | none => some []))
  let valid_seed_objs := raw_seeds.filterMap (fun s => validate_track env (some s))
  let valid_seeds := (valid_seed_objs.take 5).filterMap
    (fun t => match t.id with
      | some i => if i = "" then none else some i
      | none => none)
  let mood_kwargs :=
    match change_mood with
    | some m => (EMOTION_FEATURES m).getD []
    | none => []
  let stage1 : Option RecsResult :=
    if valid_seeds = [] then none
    else match safe_recs env ⟨limit, some valid_seeds, none, mood_kwargs⟩ with
      | some r => if r.tracks = [] then none else some r
      | none => none
  match stage1 with
  | some r => r
  | none =>
    let stage2 :=
      match safe_recs env ⟨limit, none, some fallback_genres, mood_kwargs⟩ with
      | some r => if r.tracks = [] then none else some r
      | none => none
    match stage2 with
    | some r => r
    | none =>
      let stage3 :=
        match safe_recs env ⟨limit, none, some ["pop"], mood_kwargs⟩ with
        | some r => if r.tracks = [] then none else some r
        | none => none
      match stage3 with
      | some r => r
      | none =>
        match searchFallback env search_queries with
        | some playable => ⟨[playable]⟩
        | none =>
          match knownGoodFallback env known_good_ids with
          | some t => ⟨[t]⟩
          | none => ⟨[]⟩

/-! ### Target Profile Builder (spec-modelled)

`build_target_features_from_emotion` is imported by src/moodify.py (line 8)
and called at line 116, but src/spotify_helper.py does not define it; the
definitions below model it from spec section 4.2. -/

/-- A target feature profile over the shared attribute subset
{valence, energy, tempo, danceability}; an attribute can be absent. -/
structure FeatureTarget where
  valence : Option ℚ
  energy : Option ℚ
  tempo : Option ℚ
  danceability : Option ℚ
deriving DecidableEq

/-- Modelled from the spec: the fixed base table of section 4.2, with the
point attributes taken from the `EMOTION_FEATURES` constants that are in
src/spotify_helper.py (`target_valence`, `target_energy`,
`target_danceability`); the source gives tempo only as a min/max range, so
the point tempo attribute is absent, and "neutral" has no entry in
`EMOTION_FEATURES`, so its profile is empty. -/
def MOOD_BASE (e : String) : FeatureTarget :=
  let tbl := (EMOTION_FEATURES e).getD []
  ⟨(tbl.lookup "target_valence"), (tbl.lookup "target_energy"), none,
   (tbl.lookup "target_danceability")⟩

/-- Modelled from the spec: per-attribute linear interpolation
`w * current + (1 - w) * other`; attributes absent from one side are omitted
from the blend result (spec section 4.2). -/
def blendAttr (w : ℚ) (a b : Option ℚ) : Option ℚ :=
  match a, b with
  | some x, some y => some (w * x + (1 - w) * y)
  | _, _ => none

/-- Modelled from the spec: per-attribute blend of two profiles. -/
def blendProfile (w : ℚ) (p q : FeatureTarget) : FeatureTarget :=
  ⟨blendAttr w p.valence q.valence, blendAttr w p.energy q.energy,
   blendAttr w p.tempo q.tempo, blendAttr w p.danceability q.danceability⟩

/-- Modelled from the spec: `build_target_features_from_emotion` (absent from
src/spotify_helper.py, called by src/moodify.py line 116), following spec
section 4.2: match mode returns the base profile unmodified; change mode
blends 30% current + 70% happy for sad/anxious/angry, 60% current +
40% relaxed for happy, and 50% current + 50% neutral otherwise. -/
def build_target_features_from_emotion (emotion : String) (behavior : String) :
    FeatureTarget :=
  if behavior = "match" then MOOD_BASE emotion
  else if emotion = "sad" ∨ emotion = "anxious" ∨ emotion = "angry" then
    blendProfile (3/10) (MOOD_BASE emotion) (MOOD_BASE "happy")
  else if emotion = "happy" then
    blendProfile (3/5) (MOOD_BASE "happy") (MOOD_BASE "relaxed")
  else
    blendProfile (1/2) (MOOD_BASE emotion) (MOOD_BASE "neutral")

/-! ### Scorer/Sampler (spec-modelled)

`score_and_sample_tracks` is imported by src/moodify.py (line 9) and called
at line 119 with the list of audio-feature dicts, `k=10`, the target and an
optional seed, returning indices into the list; src/spotify_helper.py does
not define it, so the definitions below model it from spec section 4.3.
Real-valued steps are replaced by exact-rational surrogates: the squared
Euclidean distance stands for the Euclidean distance and
`scale / (scale + d)` stands for `exp(-d / scale)`; both keep the
spec-relevant structure (non-negative, monotone-decreasing in distance),
and the claims settled about the sampler do not depend on the decay shape. -/

/-- Audio features of one candidate, as displayed by src/moodify.py line 170. -/
structure AudioFeatures where
  id : String
  valence : ℚ
  energy : ℚ
  tempo : ℚ
  danceability : ℚ
deriving DecidableEq

/-- Modelled from the spec: the candidate feature vector in fixed attribute
order, tempo normalized by the 200 BPM reference ceiling. -/
def featVec (f : AudioFeatures) : List ℚ :=
  [f.valence, f.energy, f.tempo / 200, f.danceability]

/-- Modelled from the spec: the target vector in the same attribute order;
an absent target attribute contributes 0. -/
def targVec (t : FeatureTarget) : List ℚ :=
  [t.valence.getD 0, t.energy.getD 0, (t.tempo.getD 0) / 200,
   t.danceability.getD 0]

/-- Modelled from the spec: squared Euclidean distance between two vectors
(exact-rational surrogate for the Euclidean distance). -/
def dist2 (a b : List ℚ) : ℚ := ((a.zip b).map fun p => (p.1 - p.2) ^ 2).sum

/-- Modelled from the spec: median of the candidate distances. -/
def medianQ (l : List ℚ) : ℚ :=
  let s := l.mergeSort (fun a b => decide (a ≤ b))
  s.getD (s.length / 2) 0

/-- Modelled from the spec: the decay scale, the median of all candidate
distances floored at a small epsilon. -/
def scaleOf (ds : List ℚ) : ℚ := max (medianQ ds) (1/1000)

/-- Modelled from the spec: distance-to-score decay, an exact-rational
surrogate for `exp(-d / scale)`. -/
def decayScore (scale d : ℚ) : ℚ := scale / (scale + d)

/-- A linear congruential step, the deterministic pseudo-random generator
seeded by the caller (modulus 2^31 kept explicit). -/
def lcgNext (s : Nat) : Nat := (1103515245 * s + 12345) % 2 ^ 31

/-- Modelled from the spec: one weighted draw; walks the cumulative weights
until they exceed `r` and returns the chosen entry and the remaining pool
(the last entry absorbs any residue). -/
def drawIdx : ℚ → List (Nat × ℚ) → Option ((Nat × ℚ) × List (Nat × ℚ))
  | _, [] => none
  | _, [x] => some (x, [])
  | r, x :: y :: rest =>
      if r ≤ x.2 then some (x, y :: rest)
      else
        match drawIdx (r - x.2) (y :: rest) with
        | none => some (x, y :: rest)
        | some (z, l) => some (z, x :: l)

/-- Modelled from the spec: weighted sampling without replacement; each drawn
entry is removed from the pool before the next draw. -/
def sampleLoop : Nat → Nat → List (Nat × ℚ) → List Nat
  | 0, _, _ => []
  | _ + 1, _, [] => []
  | k + 1, st, pool =>
      let st' := lcgNext st
      let total := (pool.map (fun p => p.2)).sum
      let r := (st' : ℚ) / 2 ^ 31 * total
      match drawIdx r pool with
      | none => []
      | some (x, rest) => x.1 :: sampleLoop k st' rest

/-- Modelled from the spec: `score_and_sample_tracks` (absent from
src/spotify_helper.py, called by src/moodify.py line 119), following spec
section 4.3: score candidates by decayed distance to the target, normalize
to a probability distribution (uniform fallback on zero total), and draw
`min(k, pool size)` distinct indices without replacement.  The generator
state starts from the supplied seed; without a seed it starts from the
ambient `entropy` argument, which models the fresh unseeded randomness. -/
def score_and_sample_tracks (features : List AudioFeatures) (k : Nat)
    (target : FeatureTarget) (seed : Option Nat) (entropy : Nat) : List Nat :=
  if features.isEmpty then []
  else
    let tv := targVec target
    let ds := features.map fun f => dist2 (featVec f) tv
    let scale := scaleOf ds
    let scores := ds.map (decayScore scale)
    let total := scores.sum
    let weights :=
      if 0 < total then scores.map (fun s => s / total)
      else scores.map fun _ => 1 / (features.length : ℚ)
    let indexed := (List.range features.length).zip weights
    let st :=
      match seed with
      | some s => s
      | none => entropy
    sampleLoop (min k features.length) st indexed

/-- Whether a raw entry's lower-cased label contributes its score to some
target bucket in `stepEntry`, either through `LABEL_MAP` or directly. -/
def contributes (label : String) : Bool :=
  match LABEL_MAP label with
  | some mapped =>
      if mapped ∈ TARGET_EMOTIONS then true else decide (label ∈ TARGET_EMOTIONS)
  | none => decide (label ∈ TARGET_EMOTIONS)

/-! ## Lemmas about the Emotion Normalizer -/

theorem sumScores_bump (sc : String → ℚ) (k : String) (v : ℚ)
    (hk : k ∈ TARGET_EMOTIONS) : sumScores (bump sc k v) = sumScores sc + v := by
  fin_cases hk <;> simp [sumScores, TARGET_EMOTIONS, bump] <;> ring

theorem sumScores_step (sc : String → ℚ) (p : String × ℚ) :
    sumScores (stepEntry sc p) =
      sumScores sc + (if contributes (pyLower p.1) then p.2 else 0) := by
  unfold stepEntry contributes
  cases h : LABEL_MAP (pyLower p.1) with
  | none =>
      by_cases hl : pyLower p.1 ∈ TARGET_EMOTIONS <;>
        simp [h, hl, sumScores_bump]
  | some m =>
      by_cases hm : m ∈ TARGET_EMOTIONS
      · simp [h, hm, sumScores_bump]
      · by_cases hl : pyLower p.1 ∈ TARGET_EMOTIONS <;> simp [h, hm, hl, sumScores_bump]

theorem sumScores_foldl (raw : List (String × ℚ)) :
    ∀ sc : String → ℚ, sumScores (raw.foldl stepEntry sc) =
      sumScores sc + (raw.map fun p => if contributes (pyLower p.1) then p.2 else 0).sum := by
  induction raw with
  | nil => simp
  | cons p rest ih =>
      intro sc
      simp only [List.foldl_cons, List.map_cons, List.sum_cons, ih, sumScores_step]
      ring

theorem stepEntry_nonneg (sc : String → ℚ) (p : String × ℚ)
    (hsc : ∀ k, 0 ≤ sc k) (hp : 0 ≤ p.2) : ∀ k, 0 ≤ stepEntry sc p k := by
  intro j
  have hb : ∀ m, 0 ≤ bump sc m p.2 j := by
    intro m
    unfold bump
    by_cases hj : j = m
    · simpa [hj] using add_nonneg (hsc j) hp
    · simpa [hj] using hsc j
  unfold stepEntry
  cases h : LABEL_MAP (pyLower p.1) with
  | none =>
      by_cases hl : pyLower p.1 ∈ TARGET_EMOTIONS <;> simp only [h, hl, if_true, if_false] <;>
        first
        | exact hb _
        | exact hsc j
  | some m =>
      by_cases hm : m ∈ TARGET_EMOTIONS <;>
        by_cases hl : pyLower p.1 ∈ TARGET_EMOTIONS <;>
          simp only [h, hm, hl, if_true, if_false] <;>
            first
            | exact hb _
            | exact hsc j

theorem rawScores_nonneg (raw : List (String × ℚ)) (hnn : ∀ p ∈ raw, 0 ≤ p.2) :
    ∀ k, 0 ≤ rawScores raw k := by
  unfold rawScores
  have h : ∀ (l : List (String × ℚ)) (sc : String → ℚ), (∀ k, 0 ≤ sc k) →
      (∀ p ∈ l, 0 ≤ p.2) → ∀ k, 0 ≤ (l.foldl stepEntry sc) k := by
    intro l
    induction l with
    | nil => intro sc hsc _ k; simpa using hsc k
    | cons q rest ih =>
        intro sc hsc hl k
        simp only [List.foldl_cons]
        exact ih (stepEntry sc q)
          (stepEntry_nonneg sc q hsc (hl q (List.mem_cons_self _ _)))
          (fun r hr => hl r (List.mem_cons_of_mem _ hr)) k
  exact h raw _ (fun _ => le_refl 0) hnn

theorem sumScores_rawScores_pos (raw : List (String × ℚ))
    (hnn : ∀ p ∈ raw, 0 ≤ p.2)
    (hpos : ∃ p ∈ raw, contributes (pyLower p.1) = true ∧ 0 < p.2) :
    0 < sumScores (rawScores raw) := by
  obtain ⟨p, hp, hc, hv⟩ := hpos
  have hsum := sumScores_foldl raw (fun _ => 0)
  have hz : sumScores (fun _ => 0) = 0 := by simp [sumScores]
  rw [rawScores, hsum, hz, zero_add]
  have hterm : (if contributes (pyLower p.1) then p.2 else 0) ∈
      raw.map fun q => if contributes (pyLower q.1) then q.2 else 0 :=
    List.mem_map_of_mem _ hp
  have hle : (if contributes (pyLower p.1) then p.2 else 0) ≤
      (raw.map fun q => if contributes (pyLower q.1) then q.2 else 0).sum := by
    refine List.single_le_sum ?_ _ hterm
    intro x hx
    obtain ⟨q, hq, rfl⟩ := List.mem_map.mp hx
    split
    · exact hnn q hq
    · exact le_refl 0
  rw [hc, if_pos rfl] at hle
  exact lt_of_lt_of_le hv hle

theorem stepEntry_noop (sc : String → ℚ) (p : String × ℚ)
    (h : contributes (pyLower p.1) = false) : stepEntry sc p = sc := by
  unfold contributes at h
  unfold stepEntry
  cases hm : LABEL_MAP (pyLower p.1) with
  | none =>
      rw [hm] at h
      simp only [decide_eq_false_iff_not] at h
      simp [hm, h]
  | some m =>
      rw [hm] at h
      by_cases hmm : m ∈ TARGET_EMOTIONS
      · simp [hmm] at h
      · simp only [hmm, if_false, decide_eq_false_iff_not] at h
        simp [hm, hmm, h]

theorem rawScores_zero (raw : List (String × ℚ))
    (h : ∀ p ∈ raw, contributes (pyLower p.1) = false) :
    rawScores raw = fun _ => 0 := by
  unfold rawScores
  induction raw with
  | nil => rfl
  | cons p rest ih =>
      simp only [List.foldl_cons, stepEntry_noop _ p (h p (List.mem_cons_self _ _))]
      exact ih fun q hq => h q (List.mem_cons_of_mem _ hq)

theorem pyMax_cases (sc : String → ℚ) :
    let m := pyMaxSnd ("happy", sc "happy")
      [("sad", sc "sad"), ("relaxed", sc "relaxed"), ("anxious", sc "anxious"),
       ("angry", sc "angry")]
    (m.1 = "happy" ∧ m.2 = sc "happy") ∨
    (m.1 = "sad" ∧ m.2 = sc "sad" ∧ sc "happy" < sc "sad") ∨
    (m.1 = "relaxed" ∧ m.2 = sc "relaxed" ∧ sc "happy" < sc "relaxed" ∧
      sc "sad" < sc "relaxed") ∨
    (m.1 = "anxious" ∧ m.2 = sc "anxious" ∧ sc "happy" < sc "anxious" ∧
      sc "sad" < sc "anxious" ∧ sc "relaxed" < sc "anxious") ∨
    (m.1 = "angry" ∧ m.2 = sc "angry" ∧ sc "happy" < sc "angry" ∧
      sc "sad" < sc "angry" ∧ sc "relaxed" < sc "angry" ∧ sc "anxious" < sc "angry") := by
  simp only [pyMaxSnd, List.foldl]
  split_ifs <;> simp_all <;> (repeat' apply And.intro) <;> linarith

theorem pyMax_ge (sc : String → ℚ) :
    let m := pyMaxSnd ("happy", sc "happy")
      [("sad", sc "sad"), ("relaxed", sc "relaxed"), ("anxious", sc "anxious"),
       ("angry", sc "angry")]
    sc "happy" ≤ m.2 ∧ sc "sad" ≤ m.2 ∧ sc "relaxed" ≤ m.2 ∧ sc "anxious" ≤ m.2 ∧
      sc "angry" ≤ m.2 := by
  simp only [pyMaxSnd, List.foldl]
  split_ifs <;> (repeat' apply And.intro) <;> simp_all <;> linarith

/-! ## Claim theorems: Emotion Normalizer -/

/-- C1: for every raw classifier output with non-negative scores in which at
least one (label, score) pair carries positive score mass into a target
category, `EmotionDetector.predict` returns a scores mapping whose weights
are all non-negative and sum to exactly 1. -/
theorem C1_normalizer_distribution (raw : List (String × ℚ))
    (hnn : ∀ p ∈ raw, 0 ≤ p.2)
    (hpos : ∃ p ∈ raw, contributes (pyLower p.1) = true ∧ 0 < p.2) :
    (∀ k, 0 ≤ (predict raw).scores k) ∧ sumScores (predict raw).scores = 1 := by
  have hs : 0 < sumScores (rawScores raw) := sumScores_rawScores_pos raw hnn hpos
  have hsc : (predict raw).scores = fun k => rawScores raw k / sumScores (rawScores raw) := by
    simp [predict, normalizeScores, hs]
  constructor
  · intro k
    rw [hsc]
    exact div_nonneg (rawScores_nonneg raw hnn k) (le_of_lt hs)
  · rw [hsc]
    have hdiv : sumScores (fun k => rawScores raw k / sumScores (rawScores raw)) =
        sumScores (rawScores raw) / sumScores (rawScores raw) := by
      simp [sumScores, TARGET_EMOTIONS]
      ring
    rw [hdiv, div_self (ne_of_gt hs)]

/-- Witness for C1 at the concrete raw output `[("joy", 1.0)]`. -/
theorem C1_normalizer_distribution_witness :
    (∀ k, 0 ≤ (predict [("joy", (1 : ℚ))]).scores k) ∧
      sumScores (predict [("joy", (1 : ℚ))]).scores = 1 :=
  C1_normalizer_distribution [("joy", 1)] (by simp)
    ⟨("joy", 1), by simp,
      by simp [contributes, pyLower, charLower, LABEL_MAP, TARGET_EMOTIONS],
      by simp⟩

/-- C2 counterexample: on the raw output `[("joy", 0.8), ("neutral", 0.2)]`
the predicted happy weight is 1, not 0.8, the neutral weight is 0, not 0.2,
and "neutral" is not a member of `TARGET_EMOTIONS`, refuting the claimed
distribution and the claimed membership of "neutral" in the category set. -/
theorem C2_scenarioA_counterexample :
    (predict [("joy", 4/5), ("neutral", 1/5)]).scores "happy" = 1 ∧
    (predict [("joy", 4/5), ("neutral", 1/5)]).scores "happy" ≠ 4/5 ∧
    (predict [("joy", 4/5), ("neutral", 1/5)]).scores "neutral" = 0 ∧
    "neutral" ∉ TARGET_EMOTIONS := by
  refine ⟨?_, ?_, ?_, ?_⟩ <;>
    simp [predict, normalizeScores, rawScores, stepEntry, LABEL_MAP, pyLower, charLower,
      bump, sumScores, TARGET_EMOTIONS] <;> norm_num

/-- C2 amended: the category set has no "neutral" member, so the 0.2 mass of
the "neutral" pair is dropped and normalization leaves
happy = 1 and every other category 0, with top `happy` at score 1. -/
theorem C2_scenarioA_amended :
    (predict [("joy", 4/5), ("neutral", 1/5)]).scores "happy" = 1 ∧
    (predict [("joy", 4/5), ("neutral", 1/5)]).scores "sad" = 0 ∧
    (predict [("joy", 4/5), ("neutral", 1/5)]).scores "relaxed" = 0 ∧
    (predict [("joy", 4/5), ("neutral", 1/5)]).scores "anxious" = 0 ∧
    (predict [("joy", 4/5), ("neutral", 1/5)]).scores "angry" = 0 ∧
    (predict [("joy", 4/5), ("neutral", 1/5)]).top = "happy" ∧
    (predict [("joy", 4/5), ("neutral", 1/5)]).top_score = 1 ∧
    (predict [("joy", 4/5), ("neutral", 1/5)]).scores "neutral" = 0 ∧
    "neutral" ∉ TARGET_EMOTIONS := by
  refine ⟨?_, ?_, ?_, ?_, ?_, ?_, ?_, ?_, ?_⟩ <;>
    simp [predict, normalizeScores, rawScores, stepEntry, LABEL_MAP, pyLower, charLower,
      bump, sumScores, TARGET_EMOTIONS, pyMaxSnd] <;> norm_num

/-- C7: evaluation of `EmotionDetector.predict` at the failing input
`[("surprise", 1.0)]`: no score mass maps to any target category, the
normalization branch is skipped, and the returned weights sum to 0, not 1 —
the all-zero mapping is not a valid probability distribution. -/
theorem C7_zero_mass_unnormalized :
    sumScores (predict [("surprise", (1 : ℚ))]).scores = 0 ∧
    (predict [("surprise", (1 : ℚ))]).scores "happy" = 0 := by
  constructor <;>
    simp [predict, normalizeScores, rawScores, stepEntry, LABEL_MAP, pyLower, charLower,
      bump, sumScores, TARGET_EMOTIONS]

/-- C10: the top category returned by `EmotionDetector.predict` is always a
member of `TARGET_EMOTIONS`, its reported score is its weight, it carries a
maximal weight, every category earlier in `TARGET_EMOTIONS` order than the
top has strictly smaller weight (so the earliest tied category wins), and
fully unmapped input yields top "happy" with top score 0. -/
theorem C10_top_first_argmax (raw : List (String × ℚ)) :
    (predict raw).top ∈ TARGET_EMOTIONS ∧
    (predict raw).top_score = (predict raw).scores (predict raw).top ∧
    ((predict raw).scores "happy" ≤ (predict raw).top_score ∧
      (predict raw).scores "sad" ≤ (predict raw).top_score ∧
      (predict raw).scores "relaxed" ≤ (predict raw).top_score ∧
      (predict raw).scores "anxious" ≤ (predict raw).top_score ∧
      (predict raw).scores "angry" ≤ (predict raw).top_score) ∧
    ((predict raw).top = "sad" →
      (predict raw).scores "happy" < (predict raw).top_score) ∧
    ((predict raw).top = "relaxed" →
      (predict raw).scores "happy" < (predict raw).top_score ∧
      (predict raw).scores "sad" < (predict raw).top_score) ∧
    ((predict raw).top = "anxious" →
      (predict raw).scores "happy" < (predict raw).top_score ∧
      (predict raw).scores "sad" < (predict raw).top_score ∧
      (predict raw).scores "relaxed" < (predict raw).top_score) ∧
    ((predict raw).top = "angry" →
      (predict raw).scores "happy" < (predict raw).top_score ∧
      (predict raw).scores "sad" < (predict raw).top_score ∧
      (predict raw).scores "relaxed" < (predict raw).top_score ∧
      (predict raw).scores "anxious" < (predict raw).top_score) ∧
    ((∀ p ∈ raw, contributes (pyLower p.1) = false) →
      (predict raw).top = "happy" ∧ (predict raw).top_score = 0) := by
  set sc := normalizeScores (rawScores raw) with hsc
  have hpr : predict raw =
      { scores := sc,
        top := (pyMaxSnd ("happy", sc "happy")
          [("sad", sc "sad"), ("relaxed", sc "relaxed"), ("anxious", sc "anxious"),
           ("angry", sc "angry")]).1,
        top_score := (pyMaxSnd ("happy", sc "happy")
          [("sad", sc "sad"), ("relaxed", sc "relaxed"), ("anxious", sc "anxious"),
           ("angry", sc "angry")]).2 } := by
    simp [predict, TARGET_EMOTIONS, hsc]
  have hcases := pyMax_cases sc
  have hge := pyMax_ge sc
  simp only at hcases hge
  rw [hpr]
  simp only [TARGET_EMOTIONS]
  constructor
  · rcases hcases with ⟨h1, _⟩ | ⟨h1, _⟩ | ⟨h1, _⟩ | ⟨h1, _⟩ | ⟨h1, _⟩ <;> simp [h1]
  refine ⟨?_, ?_, ?_, ?_, ?_, ?_, ?_⟩
  · rcases hcases with ⟨h1, h2⟩ | ⟨h1, h2, _⟩ | ⟨h1, h2, _⟩ | ⟨h1, h2, _⟩ | ⟨h1, h2, _⟩ <;>
      rw [h1, h2]
  · exact hge
  · intro htop
    rcases hcases with ⟨h1, h2⟩ | ⟨h1, h2, h3⟩ | ⟨h1, h2, h3⟩ | ⟨h1, h2, h3⟩ | ⟨h1, h2, h3⟩ <;>
      simp_all
  · intro htop
    rcases hcases with ⟨h1, h2⟩ | ⟨h1, h2, h3⟩ | ⟨h1, h2, h3, h4⟩ | ⟨h1, h2, h3⟩ | ⟨h1, h2, h3⟩ <;>
      simp_all
  · intro htop
    rcases hcases with ⟨h1, h2⟩ | ⟨h1, h2, h3⟩ | ⟨h1, h2, h3, h4⟩ | ⟨h1, h2, h3, h4, h5⟩ |
      ⟨h1, h2, h3⟩ <;> simp_all
  · intro htop
    rcases hcases with ⟨h1, h2⟩ | ⟨h1, h2, h3⟩ | ⟨h1, h2, h3, h4⟩ | ⟨h1, h2, h3, h4, h5⟩ |
      ⟨h1, h2, h3, h4, h5, h6⟩ <;> simp_all
  · intro hzero
    have hz : rawScores raw = fun _ => 0 := rawScores_zero raw hzero
    have hs0 : sc = fun _ => 0 := by
      rw [hsc, hz]
      simp [normalizeScores, sumScores]
    rw [hs0]
    simp [pyMaxSnd]

/-- Witness for C10 at the fully unmapped concrete raw output
`[("surprise", 1.0)]`: the top is "happy" with top score 0. -/
theorem C10_top_first_argmax_witness :
    (predict [("surprise", (1 : ℚ))]).top = "happy" ∧
      (predict [("surprise", (1 : ℚ))]).top_score = 0 :=
  (C10_top_first_argmax [("surprise", 1)]).2.2.2.2.2.2.2
    (by simp [contributes, pyLower, charLower, LABEL_MAP, TARGET_EMOTIONS])

/-! ## Claim theorems: Target Profile Builder -/

/-- C3: in change mode, for each current category among sad, anxious and
angry, the target profile is the per-attribute blend of 30% of the current
base profile and 70% of the happy base profile; in particular the sad target
valence is 0.3 * sad.valence + 0.7 * happy.valence = 0.675, which lies
strictly between the sad and happy base valences and strictly closer to the
happy one. -/
theorem C3_change_mode_blend :
    (MOOD_BASE "sad").valence = some (3/20) ∧
    (MOOD_BASE "anxious").valence = some (2/5) ∧
    (MOOD_BASE "angry").valence = some (1/10) ∧
    (MOOD_BASE "happy").valence = some (9/10) ∧
    build_target_features_from_emotion "sad" "change" =
      blendProfile (3/10) (MOOD_BASE "sad") (MOOD_BASE "happy") ∧
    build_target_features_from_emotion "anxious" "change" =
      blendProfile (3/10) (MOOD_BASE "anxious") (MOOD_BASE "happy") ∧
    build_target_features_from_emotion "angry" "change" =
      blendProfile (3/10) (MOOD_BASE "angry") (MOOD_BASE "happy") ∧
    (build_target_features_from_emotion "sad" "change").valence =
      some (3/10 * (3/20) + 7/10 * (9/10)) ∧
    (build_target_features_from_emotion "anxious" "change").valence =
      some (3/10 * (2/5) + 7/10 * (9/10)) ∧
    (build_target_features_from_emotion "angry" "change").valence =
      some (3/10 * (1/10) + 7/10 * (9/10)) ∧
    (3/20 : ℚ) < 3/10 * (3/20) + 7/10 * (9/10) ∧
    (3/10 * (3/20) + 7/10 * (9/10) : ℚ) < 9/10 ∧
    (9/10 : ℚ) - (3/10 * (3/20) + 7/10 * (9/10)) <
      (3/10 * (3/20) + 7/10 * (9/10)) - 3/20 := by
  refine ⟨?_, ?_, ?_, ?_, ?_, ?_, ?_, ?_, ?_, ?_, ?_, ?_, ?_⟩ <;>
    (try simp [build_target_features_from_emotion, blendProfile, blendAttr, MOOD_BASE,
      EMOTION_FEATURES, List.lookup]) <;> (try norm_num)

/-! ## Claim theorems: playlist persistence -/

/-- C9: whenever the normalized, falsy-filtered reference list is empty,
`create_playlist_and_add_tracks` raises the ValueError with no external call
made before it (so no playlist is created and no external state is mutated),
and whenever at least one valid reference survives, the playlist-creation
call is the first external call, followed only by the add-items chunks; the
empty list, None, a list of a falsy or whitespace string and a dict without
uri and id all normalize to the empty prepared list. -/
theorem C9_valueerror_before_calls (user name : String) (descr : Option String)
    (tids tids2 : Option (List (Option TrackRef)))
    (h : preparedOf tids = []) (h2 : preparedOf tids2 ≠ []) :
    create_playlist_and_add_tracks user name tids descr =
      Except.error ("No valid track URIs/IDs to add to playlist.", []) ∧
    create_playlist_and_add_tracks user name tids2 descr =
      Except.ok (ExtCall.createP user name false (descr.getD "") ::
        (chunks100 (preparedOf tids2)).map ExtCall.addItems) ∧
    preparedOf none = [] ∧
    preparedOf (some []) = [] ∧
    preparedOf (some [none]) = [] ∧
    preparedOf (some [some (TrackRef.str "")]) = [] ∧
    preparedOf (some [some (TrackRef.str "   ")]) = [] ∧
    preparedOf (some [some (TrackRef.obj none none)]) = [] := by
  refine ⟨?_, ?_, rfl, rfl, rfl, rfl, rfl, rfl⟩
  · simp [create_playlist_and_add_tracks, h]
  · simp [create_playlist_and_add_tracks, List.isEmpty_iff, h2]

/-- Witness for C9: the error path at `None` and the success path at a
single URI-form reference. -/
theorem C9_valueerror_before_calls_witness :
    create_playlist_and_add_tracks "u" "n" none none =
      Except.error ("No valid track URIs/IDs to add to playlist.", []) ∧
    create_playlist_and_add_tracks "u" "n"
        (some [some (TrackRef.str "spotify:track:x")]) none =
      Except.ok (ExtCall.createP "u" "n" false "" ::
        (chunks100 (preparedOf (some [some (TrackRef.str "spotify:track:x")]))).map
          ExtCall.addItems) ∧
    preparedOf none = [] ∧
    preparedOf (some []) = [] ∧
    preparedOf (some [none]) = [] ∧
    preparedOf (some [some (TrackRef.str "")]) = [] ∧
    preparedOf (some [some (TrackRef.str "   ")]) = [] ∧
    preparedOf (some [some (TrackRef.obj none none)]) = [] :=
  C9_valueerror_before_calls "u" "n" none none
    (some [some (TrackRef.str "spotify:track:x")]) rfl (by decide)

/-! ## Claim theorems: candidate/recommendation fallback orchestration -/

theorem searchFallback_none (env : SpotifyEnv)
    (h : ∀ x, validate_track env x = none) :
    ∀ qs, searchFallback env qs = none := by
  intro qs
  induction qs with
  | nil => rfl
  | cons q rest ih =>
      cases hq : env.search q with
      | error e => simp [searchFallback, hq, ih]
      | ok items =>
          have hfs : items.findSome? (fun t => validate_track env t.id) = none := by
            rw [List.findSome?_eq_none_iff]
            intro t _
            exact h _
          simp [searchFallback, hq, hfs, ih]

theorem knownGoodFallback_none (env : SpotifyEnv)
    (h : ∀ x, validate_track env x = none) :
    ∀ ids, knownGoodFallback env ids = none := by
  intro ids
  induction ids with
  | nil => rfl
  | cons kid rest ih =>
      unfold knownGoodFallback
      rw [h (some kid)]
      exact ih

/-- C5: the fallback orchestration of `recommend_tracks` never lets an
external error escape — every embedded state is total and an erroring call
behaves as an empty one (conjuncts 2 to 5: an erroring recommendations call
is `None` to its caller, an erroring search query just advances the loop, a
failed known-good validation advances the loop, and an always-raising
`sp.track` transport makes `validate_track` return `None`) — and when every
state yields nothing (all recommendation responses caught-or-empty, no track
validates) the function returns the explicitly empty result. -/
theorem C5_fallback_never_raises (env : SpotifyEnv)
    (top_tracks seed_tracks : Option (List (Option TrackRef)))
    (change_mood : Option String) (limit : Nat) (fallback_genres : List String)
    (h1 : ∀ args, safe_recs env args = none ∨ safe_recs env args = some ⟨[]⟩)
    (h2 : ∀ x, validate_track env x = none) :
    recommend_tracks env top_tracks seed_tracks change_mood limit fallback_genres =
      ⟨[]⟩ ∧
    (∀ args e, env.recommendations args = Except.error e → safe_recs env args = none) ∧
    (∀ q qs e, env.search q = Except.error e →
      searchFallback env (q :: qs) = searchFallback env qs) ∧
    (∀ kid rest, validate_track env (some kid) = none →
      knownGoodFallback env (kid :: rest) = knownGoodFallback env rest) ∧
    (∀ (env2 : SpotifyEnv) (x : Option String) (err : Option String → String),
      env2.track = (fun t => Except.error (err t)) → validate_track env2 x = none) := by
  have hstage : ∀ args, (match safe_recs env args with
      | some r => if r.tracks = [] then none else some r
      | none => (none : Option RecsResult)) = none := by
    intro args
    rcases h1 args with h | h <;> simp [h]
  have hseeds : ∀ l : List String,
      l.filterMap (fun s => validate_track env (some s)) = [] := by
    intro l
    rw [List.filterMap_eq_nil_iff]
    intro a _
    exact h2 _
  refine ⟨?_, ?_, ?_, ?_, ?_⟩
  · unfold recommend_tracks
    simp only [hseeds, hstage, List.take_nil, List.filterMap_nil, if_pos rfl,
      searchFallback_none env h2, knownGoodFallback_none env h2]
    simp
  · intro args e he
    simp [safe_recs, he]
  · intro q qs e he
    simp [searchFallback, he]
  · intro kid rest hv
    simp [knownGoodFallback, hv]
  · intro env2 x err he
    unfold validate_track
    rw [he]

/-- Witness for C5: a Spotify client whose every call raises yields the
explicitly empty result from `recommend_tracks`. -/
theorem C5_fallback_never_raises_witness :
    recommend_tracks
      ⟨fun _ => Except.error "down", fun _ => Except.error "down",
        fun _ => Except.error "down"⟩
      none none none 20 ["pop", "indie", "rock"] = ⟨[]⟩ :=
  (C5_fallback_never_raises
    ⟨fun _ => Except.error "down", fun _ => Except.error "down",
      fun _ => Except.error "down"⟩
    none none none 20 ["pop", "indie", "rock"]
    (fun _ => Or.inl rfl) (fun _ => rfl)).1

/-! ## Claim theorems: track-reference normalization and batching -/

theorem charOk_not_ws (c : Char)
    (h : (c.isAlphanum || c = '-' || c = '_') = true) : isWsChar c = false := by
  unfold isWsChar
  rw [decide_eq_false_iff_not]
  intro hmem
  fin_cases hmem <;> simp_all

theorem dropWhile_no_ws (l : List Char)
    (h : ∀ c ∈ l, isWsChar c = false) : l.dropWhile isWsChar = l := by
  cases l with
  | nil => rfl
  | cons c rest =>
      rw [List.dropWhile_cons, h c (List.mem_cons_self _ _)]
      simp

theorem stripL_no_ws (l : List Char)
    (h : ∀ c ∈ l, isWsChar c = false) : stripL l = l := by
  unfold stripL
  rw [dropWhile_no_ws l h, dropWhile_no_ws l.reverse (fun c hc => h c (List.mem_reverse.mp hc)),
    List.reverse_reverse]

theorem containsSubL_subset (pat : List Char) (l : List Char)
    (h : containsSubL pat l = true) : ∀ c ∈ pat, c ∈ l := by
  induction l with
  | nil =>
      unfold containsSubL at h
      rw [List.isEmpty_iff] at h
      subst h
      intro c hc
      cases hc
  | cons x rest ih =>
      unfold containsSubL at h
      rw [Bool.or_eq_true] at h
      rcases h with h | h
      · rw [List.isPrefixOf_iff_prefix] at h
        exact fun c hc => h.sublist.subset hc
      · exact fun c hc => List.mem_cons_of_mem _ (ih h c hc)

theorem bare_id_no_colon (id : String)
    (hchars : ∀ c ∈ id.data, (c.isAlphanum || c = '-' || c = '_') = true) :
    pyStartsWith id "spotify:track:" = false := by
  unfold pyStartsWith
  rw [Bool.eq_false_iff]
  intro hpre
  rw [List.isPrefixOf_iff_prefix] at hpre
  have hcol : ':' ∈ id.data := hpre.sublist.subset (by decide)
  have := hchars ':' hcol
  simp at this

theorem bare_id_no_url (id : String)
    (hchars : ∀ c ∈ id.data, (c.isAlphanum || c = '-' || c = '_') = true) :
    containsSub id "open.spotify.com/track/" = false := by
  unfold containsSub
  rw [Bool.eq_false_iff]
  intro hsub
  have hdot : '.' ∈ id.data := containsSubL_subset _ _ hsub '.' (by decide)
  have := hchars '.' hdot
  simp at this

theorem chunks100_spec (l : List String) :
    (∀ c ∈ chunks100 l, c.length ≤ 100) ∧ (chunks100 l).flatten = l := by
  induction l using chunks100.induct with
  | case1 => simp [chunks100]
  | case2 l hne ih =>
      rw [chunks100, dif_neg hne]
      constructor
      · intro c hc
        rcases List.mem_cons.mp hc with rfl | hc
        · simpa using List.length_take_le 100 l
        · exact ih.1 c hc
      · rw [List.flatten_cons, ih.2, List.take_append_drop]

/-- C8: `create_playlist_and_add_tracks` accepts a track reference either as
the URI token `spotify:track:<id>` or as the bare 22-character identifier,
normalizes both to the same canonical URI before submission, and adds the
prepared references in batches of at most 100 whose concatenation is exactly
the prepared list. -/
theorem C8_reference_forms_and_batches (id : String) (l : List String)
    (hlen : id.length = 22)
    (hchars : ∀ c ∈ id.data, (c.isAlphanum || c = '-' || c = '_') = true) :
    preparedOf (some [some (TrackRef.str id)]) = ["spotify:track:" ++ id] ∧
    preparedOf (some [some (TrackRef.str ("spotify:track:" ++ id))]) =
      ["spotify:track:" ++ id] ∧
    (∀ c ∈ chunks100 l, c.length ≤ 100) ∧
    (chunks100 l).flatten = l := by
  have hnw : ∀ c ∈ id.data, isWsChar c = false :=
    fun c hc => charOk_not_ws c (hchars c hc)
  have hne : id ≠ "" := by
    intro h
    rw [h] at hlen
    exact absurd hlen (by decide)
  have hstrip : pyStrip id = id := by
    unfold pyStrip
    rw [stripL_no_ws id.data hnw]
  have hsw := bare_id_no_colon id hchars
  have hurl := bare_id_no_url id hchars
  have happne : ("spotify:track:" ++ id) ≠ "" := by
    intro heq
    have hd : ("spotify:track:" ++ id).data = [] := by rw [heq]
    rw [show ("spotify:track:" ++ id).data = "spotify:track:".data ++ id.data from rfl] at hd
    simp at hd
  have hstrip2 : pyStrip ("spotify:track:" ++ id) = "spotify:track:" ++ id := by
    unfold pyStrip
    rw [stripL_no_ws _ ?_]
    intro c hc
    rw [show ("spotify:track:" ++ id).data = "spotify:track:".data ++ id.data from rfl] at hc
    rcases List.mem_append.mp hc with hc | hc
    · fin_cases hc <;> rfl
    · exact hnw c hc
  have hsw2 : pyStartsWith ("spotify:track:" ++ id) "spotify:track:" = true := by
    unfold pyStartsWith
    rw [show ("spotify:track:" ++ id).data = "spotify:track:".data ++ id.data from rfl]
    rw [List.isPrefixOf_iff_prefix]
    exact List.prefix_append _ _
  refine ⟨?_, ?_, (chunks100_spec l).1, (chunks100_spec l).2⟩
  · simp only [preparedOf, normalize_ids, pyOrNil, List.foldr, normEntry, hne,
      if_neg (fun h => hne h), hstrip, hsw, hurl, Bool.false_eq_true, if_false,
      ite_self, List.append_nil, List.map, convertRef, hlen, if_pos, if_true,
      List.filter]
    simp [happne]
  · simp only [preparedOf, normalize_ids, pyOrNil, List.foldr, normEntry,
      if_neg (fun h => happne h), hstrip2, hsw2, if_true, List.append_nil,
      List.map, convertRef, List.filter]
    simp [happne]

/-- Witness for C8 at a concrete 22-character identifier and a 3-element
reference list. -/
theorem C8_reference_forms_and_batches_witness :
    preparedOf (some [some (TrackRef.str "0123456789abcdefghijAB")]) =
      ["spotify:track:" ++ "0123456789abcdefghijAB"] ∧
    preparedOf (some [some (TrackRef.str ("spotify:track:" ++ "0123456789abcdefghijAB"))]) =
      ["spotify:track:" ++ "0123456789abcdefghijAB"] ∧
    (∀ c ∈ chunks100 ["a", "b", "c"], c.length ≤ 100) ∧
    (chunks100 ["a", "b", "c"]).flatten = ["a", "b", "c"] :=
  C8_reference_forms_and_batches "0123456789abcdefghijAB" ["a", "b", "c"]
    (by decide) (by decide)

/-! ## Claim theorems: Scorer/Sampler -/

/-- C4: two invocations of the Scorer/Sampler with identical pool, target,
sample size and the same supplied seed produce identical output sequences,
whatever the ambient entropy of each call is: the generator state is taken
from the seed alone whenever one is supplied. -/
theorem C4_seeded_determinism (features : List AudioFeatures) (k : Nat)
    (target : FeatureTarget) (s e1 e2 : Nat) :
    score_and_sample_tracks features k target (some s) e1 =
      score_and_sample_tracks features k target (some s) e2 := rfl

theorem drawIdx_perm (r : ℚ) (l : List (Nat × ℚ)) :
    ∀ x rest, drawIdx r l = some (x, rest) → l.Perm (x :: rest) := by
  induction r, l using drawIdx.induct with
  | case1 r =>
      intro x rest h
      cases h
  | case2 r x =>
      intro y rest h
      unfold drawIdx at h
      rw [Option.some_inj] at h
      injection h with h1 h2
      subst h1
      subst h2
      exact List.Perm.refl _
  | case3 r x y rest hle =>
      intro z l2 h
      unfold drawIdx at h
      rw [if_pos hle, Option.some_inj] at h
      injection h with h1 h2
      subst h1
      subst h2
      exact List.Perm.refl _
  | case4 r x y rest hle hnone ih =>
      intro z l2 h
      unfold drawIdx at h
      rw [if_neg hle, hnone, Option.some_inj] at h
      injection h with h1 h2
      subst h1
      subst h2
      exact List.Perm.refl _
  | case5 r x y rest hle w l3 hsome ih =>
      intro z l2 h
      unfold drawIdx at h
      rw [if_neg hle, hsome, Option.some_inj] at h
      injection h with h1 h2
      subst h1
      subst h2
      exact List.Perm.trans (List.Perm.cons x (ih w l3 hsome)) (List.Perm.swap w x l3)

theorem sampleLoop_props :
    ∀ (k st : Nat) (pool : List (Nat × ℚ)), (pool.map Prod.fst).Nodup →
      (sampleLoop k st pool).Nodup ∧
      (sampleLoop k st pool).length ≤ min k pool.length ∧
      ∀ i ∈ sampleLoop k st pool, i ∈ pool.map Prod.fst := by
  intro k
  induction k with
  | zero => intro st pool _; simp [sampleLoop]
  | succ k ih =>
      intro st pool hnd
      cases pool with
      | nil => simp [sampleLoop]
      | cons p ps =>
          rw [show sampleLoop (k + 1) st (p :: ps) =
            (match drawIdx (((lcgNext st : ℚ) / 2 ^ 31) *
                (((p :: ps).map (fun q => q.2)).sum)) (p :: ps) with
              | none => []
              | some (x, rest) => x.1 :: sampleLoop k (lcgNext st) rest) from rfl]
          cases hdraw : drawIdx (((lcgNext st : ℚ) / 2 ^ 31) *
              (((p :: ps).map (fun q => q.2)).sum)) (p :: ps) with
          | none => simp
          | some pr =>
              obtain ⟨x, rest⟩ := pr
              have hperm := drawIdx_perm _ _ x rest hdraw
              have hpermk : ((p :: ps).map Prod.fst).Perm ((x :: rest).map Prod.fst) :=
                hperm.map Prod.fst
              have hndk : (x.1 :: rest.map Prod.fst).Nodup := by
                have := (hpermk.nodup_iff).mp hnd
                simpa using this
              have hxnot : x.1 ∉ rest.map Prod.fst := (List.nodup_cons.mp hndk).1
              have hndrest : (rest.map Prod.fst).Nodup := (List.nodup_cons.mp hndk).2
              obtain ⟨ihn, ihl, ihm⟩ := ih (lcgNext st) rest hndrest
              have hlen : ps.length = rest.length := by
                have := hperm.length_eq
                simpa using this
              refine ⟨?_, ?_, ?_⟩
              · rw [List.nodup_cons]
                exact ⟨fun hmem => hxnot (ihm _ hmem), ihn⟩
              · simp only [List.length_cons]
                omega
              · intro i hi
                rcases List.mem_cons.mp hi with rfl | hi
                · exact (hpermk.mem_iff).mpr (List.mem_cons_self _ _)
                · exact (hpermk.mem_iff).mpr (List.mem_cons_of_mem _ (ihm _ hi))

/-- C6: the Scorer/Sampler result contains no duplicate candidate indices,
has length at most min(k, pool size), and on the empty pool is the empty
sequence (the embedding is total, so no error is possible). -/
theorem C6_sampler_bounds (features : List AudioFeatures) (k : Nat)
    (target : FeatureTarget) (seed : Option Nat) (entropy : Nat) :
    (score_and_sample_tracks features k target seed entropy).Nodup ∧
    (score_and_sample_tracks features k target seed entropy).length ≤
      min k features.length ∧
    (features = [] → score_and_sample_tracks features k target seed entropy = []) := by
  by_cases hfe : features = []
  · subst hfe
    simp [score_and_sample_tracks]
  · have hf : features.isEmpty = false := by simp [hfe]
    simp only [score_and_sample_tracks, hf, Bool.false_eq_true, if_false]
    set n := features.length with hn
    set ds := features.map fun f => dist2 (featVec f) (targVec target) with hds
    set scores := ds.map (decayScore (scaleOf ds)) with hscores
    set W := if 0 < scores.sum then scores.map (fun s => s / scores.sum)
      else scores.map fun _ => 1 / (n : ℚ) with hW
    set st := (match seed with | some s => s | none => entropy) with hst
    have hWlen : W.length = n := by
      rw [hW]
      split <;> simp [hscores, hds, hn]
    have hkeys : (((List.range n).zip W).map Prod.fst) = List.range n :=
      List.map_fst_zip _ _ (by simp [hWlen])
    have hnd : (((List.range n).zip W).map Prod.fst).Nodup := by
      rw [hkeys]
      exact List.nodup_range n
    obtain ⟨h1, h2, _⟩ := sampleLoop_props (min k n) st ((List.range n).zip W) hnd
    have hzlen : ((List.range n).zip W).length = n := by
      simp [List.length_zip, hWlen]
    refine ⟨h1, ?_, fun h => absurd h hfe⟩
    rw [hzlen] at h2
    omega

/-- Witness for C6: on the empty pool the result is the empty sequence, and
on a concrete one-element pool the result has no duplicates. -/
theorem C6_sampler_bounds_witness :
    score_and_sample_tracks [] 2 ⟨none, none, none, none⟩ none 0 = [] ∧
    (score_and_sample_tracks [⟨"a", 1/2, 1/2, 120, 1/2⟩] 5
      ⟨none, none, none, none⟩ (some 7) 0).Nodup :=
  ⟨(C6_sampler_bounds [] 2 ⟨none, none, none, none⟩ none 0).2.2 rfl,
   (C6_sampler_bounds [⟨"a", 1/2, 1/2, 120, 1/2⟩] 5
     ⟨none, none, none, none⟩ (some 7) 0).1⟩

end Moodify
